import Mathlib

/-!
Formal model of the `law_dashboard` repository (Streamlit dashboard pages).

The definitions below are shallow embeddings of the data-manipulation logic in
`src/pages/A34_Refused_Data.py` (filter mask, view-selection branching,
groupby/sum aggregations, resident slope graph) and of the percentage
computation in `src/pages/litigation_dashboard.py`.  A pandas DataFrame of the
A34 dataset is modelled as a `List Record`; the three `st.multiselect` widgets
are modelled as the three lists of a `Selection`; `df[mask]` is `List.filter`;
`groupby(col)['count'].sum()` is `sum_by`; `sort_values(ascending=False)` is a
stable descending sort (`sortValuesDesc` below); `.head(n)` is `List.take n`.
-/

namespace LawDashboard

/-! ### Aggregation library

`groupby(col)['count'].sum()` sorts the distinct group keys (pandas groups
with `sort=True`) and sums the `count` column within each group;
`sort_values('count', ascending=False)` is modelled as a stable descending
sort on the summed counts (stable: pandas' descending `nargsort` reverses,
argsorts, and reverses back, which preserves the relative order of ties as
they appear in the key-sorted groupby output). -/

/-! ### Percentage-of-total (litigation dashboards)

`litigation_dashboard.py` lines 118-119 compute
`total_percent = (total_counts / total_counts.sum() * 100).round(2)` and
`litigation_interactive.py` lines 317-318 the analogous per-group
percentages.  Pandas float division is modelled by `PVal`: a finite rational,
or the non-finite floats `nan` (0/0) and `inf` (x/0 for x > 0). -/

/-! ### The always-computed resident split (C6)

Each branch of the view chain of `A34_Refused_Data.py` calls
`create_resident_slope_graph(filtered_df)`, but some branches only reach the
call behind a data-dependent guard: Case 1 requires `total_refusals > 0`
(line 303), Case 4 requires the year aggregation to be non-empty (line 457),
Case 5 requires the top-5-country treemap subset to be non-empty with a
positive count sum (line 486), and Case 7 requires the top-10-country yearly
breakdown to be non-empty (line 618). -/

/-- One row of `a34_1_refused_cleaned.csv` (columns used by the dashboard:
`country`, `year`, `inadmissibility_grounds`, `resident`, `count`). -/
structure Record where
  country : String
  year : Int
  inadmissibility_grounds : String
  resident : String
  count : Nat
deriving DecidableEq

/-- The three multiselect filter widgets of `A34_Refused_Data.py`
(lines 116-138).  An empty list means the widget is left empty, i.e. the
dimension is unrestricted. -/
structure Selection where
  selected_countries : List String
  selected_years : List Int
  selected_inadmissibility : List String
deriving DecidableEq

/-- The boolean mask of `A34_Refused_Data.py` lines 143-150: it starts all
`True` and, for each non-empty widget selection, is conjoined with the
corresponding `isin` membership test. -/
def recordMask (sel : Selection) (r : Record) : Bool :=
  (sel.selected_countries.isEmpty || decide (r.country ∈ sel.selected_countries)) &&
  (sel.selected_years.isEmpty || decide (r.year ∈ sel.selected_years)) &&
  (sel.selected_inadmissibility.isEmpty ||
    decide (r.inadmissibility_grounds ∈ sel.selected_inadmissibility))

/-- `filtered_df = df[mask]` of `A34_Refused_Data.py` line 152. -/
def applyFilter (df : List Record) (sel : Selection) : List Record :=
  df.filter (recordMask sel)

/-- `no_filters_selected = not any([...])` of `A34_Refused_Data.py` line 196. -/
def no_filters_selected (sel : Selection) : Bool :=
  sel.selected_countries.isEmpty && sel.selected_years.isEmpty &&
    sel.selected_inadmissibility.isEmpty

/-- The eight-way view bundles of `A34_Refused_Data.py`: the `no_filters`
overview (line 198) and Cases 1-8 of the `elif` chain (lines 291-679). -/
inductive ViewCase where
  | noFilters
  | allThree
  | yearCountry
  | yearCategory
  | countryCategory
  | yearOnly
  | countryOnly
  | categoryOnly
  | general
deriving DecidableEq

/-- The view-selection decision chain of `A34_Refused_Data.py`: line 198
(`if no_filters_selected`) followed by the `elif` chain on the three
`*_selected` booleans of lines 286-288, translated branch for branch
(lines 291, 314, 383, 452, 479, 505, 568, 641). -/
def selectView (sel : Selection) : ViewCase :=
  if no_filters_selected sel then ViewCase.noFilters
  else
    let year_selected := !sel.selected_years.isEmpty
    let country_selected := !sel.selected_countries.isEmpty
    let inadmissibility_selected := !sel.selected_inadmissibility.isEmpty
    if year_selected && country_selected && inadmissibility_selected then ViewCase.allThree
    else if year_selected && country_selected && !inadmissibility_selected then
      ViewCase.yearCountry
    else if year_selected && inadmissibility_selected && !country_selected then
      ViewCase.yearCategory
    else if country_selected && inadmissibility_selected && !year_selected then
      ViewCase.countryCategory
    else if year_selected && !country_selected && !inadmissibility_selected then
      ViewCase.yearOnly
    else if country_selected && !year_selected && !inadmissibility_selected then
      ViewCase.countryOnly
    else if inadmissibility_selected && !year_selected && !country_selected then
      ViewCase.categoryOnly
    else ViewCase.general

/-- What the dashboard renders for a filtered subset: either the explicit
"No data matches the selected filters" warning of lines 168-170 (followed by
`st.stop()`, so no chart is rendered), or the view bundle chosen by the
decision chain. -/
inductive Outcome where
  | noData
  | view (v : ViewCase)
deriving DecidableEq

/-- `A34_Refused_Data.py` lines 168-170 followed by the visualization section:
`if filtered_df.empty` show the no-data warning and stop, otherwise branch on
the active-filter combination. -/
def outcome (df : List Record) (sel : Selection) : Outcome :=
  if (applyFilter df sel).isEmpty then Outcome.noData
  else Outcome.view (selectView sel)

/-- Example records from the spec scenario (section 8 of the specification). -/
def exIndia2019 : Record :=
  { country := "India", year := 2019, inadmissibility_grounds := "A",
    resident := "Permanent Resident", count := 5 }

def exIndia2020 : Record :=
  { country := "India", year := 2020, inadmissibility_grounds := "B",
    resident := "Permanent Resident", count := 3 }

/-- `filtered_df[column].sum()` for the `count` column
(e.g. `total_cases`, `A34_Refused_Data.py` line 176). -/
def totalCount (df : List Record) : Nat := (df.map Record.count).sum

/-- Insert into a sorted list, before the first element that does not
strictly precede the inserted one (stable insertion). -/
def insertLe {α : Type} (le : α → α → Bool) (a : α) : List α → List α
  | [] => [a]
  | b :: l => if le a b then a :: b :: l else b :: insertLe le a l

/-- Stable insertion sort with a boolean comparator. -/
def sortLe {α : Type} (le : α → α → Bool) : List α → List α
  | [] => []
  | a :: l => insertLe le a (sortLe le l)

/-- Lexicographic comparison of strings as character lists (the order pandas
uses when sorting string group keys). -/
def charListLe : List Char → List Char → Bool
  | [], _ => true
  | _ :: _, [] => false
  | a :: as, b :: bs => if a < b then true else if b < a then false else charListLe as bs

def strLe (a b : String) : Bool := charListLe a.data b.data

def intLe (a b : Int) : Bool := decide (a ≤ b)

/-- Lexicographic order on (year, country) multi-index keys. -/
def pairLe (a b : Int × String) : Bool :=
  decide (a.1 < b.1) || (decide (a.1 = b.1) && strLe a.2 b.2)

/-- Descending comparison on summed counts: the comparator of
`sort_values('count', ascending=False)`. -/
def descBy {σ : Type} (p q : σ × Nat) : Bool := decide (q.2 ≤ p.2)

/-- `sort_values('count', ascending=False)` on an aggregation result, modelled
as a stable descending insertion sort. -/
def sortValuesDesc {σ : Type} (agg : List (σ × Nat)) : List (σ × Nat) :=
  sortLe descBy agg

/-- The sorted distinct keys of `groupby(key)` (pandas groups with
`sort=True`, so keys come out sorted, one entry per distinct value). -/
def groupKeys {α : Type} [DecidableEq α] (le : α → α → Bool) (key : Record → α)
    (df : List Record) : List α :=
  sortLe le (df.map key).dedup

/-- The summed `count` of the group of `k`: `groupby(key)['count'].sum()[k]`. -/
def groupTotal {α : Type} [DecidableEq α] (key : Record → α) (df : List Record)
    (k : α) : Nat :=
  totalCount (df.filter (fun r => decide (key r = k)))

/-- `df.groupby(key)['count'].sum()` as an association list in sorted key
order (e.g. `country_counts`, `inadmiss_data`, `yearly_totals` in
`A34_Refused_Data.py`). -/
def sum_by {α : Type} [DecidableEq α] (le : α → α → Bool) (key : Record → α)
    (df : List Record) : List (α × Nat) :=
  (groupKeys le key df).map (fun k => (k, groupTotal key df k))

/-- The grand total of an aggregation result (`.sum()` over the groups). -/
def sumCounts {σ : Type} (agg : List (σ × Nat)) : Nat := (agg.map Prod.snd).sum

/-- `sort_values('count', ascending=False).head(n)` — the top-n cut applied
throughout the dashboard (`top_countries` line 391, `country_counts`
line 225). -/
def top_n {σ : Type} (agg : List (σ × Nat)) (n : Nat) : List (σ × Nat) :=
  (sortValuesDesc agg).take n

/-- The top-n countries by total refusals
(`A34_Refused_Data.py` lines 390-391 and 225). -/
def top_countries (df : List Record) (n : Nat) : List (String × Nat) :=
  top_n (sum_by strLe Record.country df) n

/-- Two records with equal counts whose first-seen country order is B then A. -/
def exB5 : Record :=
  { country := "B", year := 2019, inadmissibility_grounds := "X",
    resident := "Permanent Resident", count := 5 }

def exA5 : Record :=
  { country := "A", year := 2020, inadmissibility_grounds := "Y",
    resident := "Permanent Resident", count := 5 }

/-- `resident_data = data.groupby('resident')['count'].sum()` of
`create_resident_slope_graph` (`A34_Refused_Data.py` line 34). -/
def residentTotals (data : List Record) : List (String × Nat) :=
  sum_by strLe Record.resident data

/-- The per-status count extraction of lines 44-45: the value for the status
if it occurs among the grouped resident values, else 0. -/
def lookupCount (name : String) (resident_data : List (String × Nat)) : Nat :=
  ((resident_data.find? (fun e => decide (e.1 = name))).map Prod.snd).getD 0

/-- `create_resident_slope_graph` (`A34_Refused_Data.py` lines 31-82):
returns no chart (`None`, after showing a warning) when fewer than two
resident-status groups exist, otherwise the two-point Permanent/Temporary
comparison. -/
def create_resident_slope_graph (data : List Record) : Option (Nat × Nat) :=
  if (residentTotals data).length < 2 then none
  else some (lookupCount "Permanent Resident" (residentTotals data),
    lookupCount "Temporary Resident" (residentTotals data))

/-- A pandas float cell: finite value, NaN, or infinity. -/
inductive PVal where
  | fin (q : ℚ)
  | nan
  | inf
deriving DecidableEq

/-- `.round(2)`: round to two decimal places. -/
def roundTo2 (q : ℚ) : ℚ := (round (q * 100) : ℚ) / 100

/-- One cell of `count / total * 100` rounded to 2 decimals, with float
division semantics at a zero denominator. -/
def divPct (num total : Nat) : PVal :=
  if total = 0 then (if num = 0 then PVal.nan else PVal.inf)
  else PVal.fin (roundTo2 ((num : ℚ) / (total : ℚ) * 100))

/-- `(total_counts / total_counts.sum() * 100).round(2)`
(`litigation_dashboard.py` lines 118-119): each group of the aggregation is
divided by the grand total of the same aggregation. -/
def total_percent {σ : Type} (agg : List (σ × Nat)) : List (σ × PVal) :=
  agg.map (fun e => (e.1, divPct e.2 (sumCounts agg)))

/-- Keys of `top_countries_data` (`A34_Refused_Data.py` line 483). -/
def top5CountryKeys (fd : List Record) : List String :=
  (top_countries fd 5).map Prod.fst

/-- `treemap_data = filtered_df[filtered_df['country'].isin(top5)]`
(line 484). -/
def treemapData (fd : List Record) : List Record :=
  fd.filter (fun r => decide (r.country ∈ top5CountryKeys fd))

/-- Keys of `top_countries_for_ground` (line 615). -/
def top10CountryKeys (fd : List Record) : List String :=
  (top_countries fd 10).map Prod.fst

/-- `yearly_country_filtered` (lines 613-616): the (year, country) groupby
restricted to the top-10 countries. -/
def yearlyCountryFiltered (fd : List Record) : List ((Int × String) × Nat) :=
  (sum_by pairLe (fun x => (x.year, x.country)) fd).filter
    (fun e => decide (e.1.2 ∈ top10CountryKeys fd))

/-- Whether the branch for a given view case reaches its
`create_resident_slope_graph` call, as guarded in the source. -/
def slopeBranch (fd : List Record) : ViewCase → Bool
  | ViewCase.allThree => decide (0 < totalCount fd)
  | ViewCase.countryCategory => !(sum_by intLe Record.year fd).isEmpty
  | ViewCase.yearOnly =>
      !(treemapData fd).isEmpty && decide (0 < totalCount (treemapData fd))
  | ViewCase.categoryOnly => !(yearlyCountryFiltered fd).isEmpty
  | _ => true

/-- Whether the dashboard run on `df` with selection `sel` computes the
Permanent-vs-Temporary resident split (i.e. reaches a
`create_resident_slope_graph` call). -/
def slopeComputed (df : List Record) (sel : Selection) : Bool :=
  match outcome df sel with
  | Outcome.noData => false
  | Outcome.view v => slopeBranch (applyFilter df sel) v

/-- A matching record whose count is zero. -/
def exZeroCount : Record :=
  { country := "India", year := 2019, inadmissibility_grounds := "A",
    resident := "Permanent Resident", count := 0 }

/-- C1: with the country dimension active and the year and category dimensions
inactive, the decision chain of `A34_Refused_Data.py` selects the
country-only view bundle (Case 6, lines 505-566), which is distinct from the
no-filters overview bundle; for a non-empty filtered subset the rendered
outcome is exactly that bundle. -/
theorem c1_country_only_selects_case6 (df : List Record) (sel : Selection)
    (hc : sel.selected_countries ≠ []) (hy : sel.selected_years = [])
    (hg : sel.selected_inadmissibility = [])
    (hne : applyFilter df sel ≠ []) :
    selectView sel = ViewCase.countryOnly ∧
    ViewCase.countryOnly ≠ ViewCase.noFilters ∧
    outcome df sel = Outcome.view ViewCase.countryOnly := by
  have hSel : selectView sel = ViewCase.countryOnly := by
    obtain ⟨c, cs, hcs⟩ := List.exists_cons_of_ne_nil hc
    rw [selectView, no_filters_selected, hcs, hy, hg]
    simp
  refine ⟨hSel, by decide, ?_⟩
  rw [outcome, ← hSel]
  simp [List.isEmpty_iff, hne]

/-- C1 witness: the theorem applied to the single-record India dataset with
only the country filter active. -/
theorem c1_witness :
    selectView (Selection.mk ["India"] [] []) = ViewCase.countryOnly ∧
    ViewCase.countryOnly ≠ ViewCase.noFilters ∧
    outcome [exIndia2019] (Selection.mk ["India"] [] []) =
      Outcome.view ViewCase.countryOnly :=
  c1_country_only_selects_case6 [exIndia2019] (Selection.mk ["India"] [] [])
    (by decide) rfl rfl (by decide)

/-- C2: the filter mask of `A34_Refused_Data.py` lines 143-152 retains exactly
the records whose value, for each dimension with a non-empty selection, lies
in that selection (AND across dimensions, OR within one via membership), and
returns the full dataset unchanged when no dimension is active. -/
theorem c2_filter_semantics (df : List Record) (sel : Selection) :
    (∀ r : Record, r ∈ applyFilter df sel ↔
      r ∈ df ∧
      (sel.selected_countries ≠ [] → r.country ∈ sel.selected_countries) ∧
      (sel.selected_years ≠ [] → r.year ∈ sel.selected_years) ∧
      (sel.selected_inadmissibility ≠ [] →
        r.inadmissibility_grounds ∈ sel.selected_inadmissibility)) ∧
    (no_filters_selected sel = true → applyFilter df sel = df) := by
  constructor
  · intro r
    rw [applyFilter, List.mem_filter, recordMask]
    simp only [Bool.and_eq_true, Bool.or_eq_true, List.isEmpty_iff, decide_eq_true_eq]
    tauto
  · intro h
    rw [no_filters_selected, Bool.and_eq_true, Bool.and_eq_true] at h
    obtain ⟨⟨h1, h2⟩, h3⟩ := h
    apply List.filter_eq_self.mpr
    intro a _
    rw [recordMask, h1, h2, h3]
    rfl

/-- C2 witness: the spec scenario — filtering the two India rows by
country = India keeps the 2019 row, and the empty selection returns the whole
dataset unchanged. -/
theorem c2_witness :
    exIndia2019 ∈ applyFilter [exIndia2019, exIndia2020] (Selection.mk ["India"] [] []) ∧
    applyFilter [exIndia2019, exIndia2020] (Selection.mk [] [] []) =
      [exIndia2019, exIndia2020] :=
  ⟨((c2_filter_semantics [exIndia2019, exIndia2020]
        (Selection.mk ["India"] [] [])).1 exIndia2019).mpr
      ⟨by decide, by decide, by decide, by decide⟩,
   (c2_filter_semantics [exIndia2019, exIndia2020] (Selection.mk [] [] [])).2 (by decide)⟩

/-- C4: a selection whose accepted values match no record produces the empty
filtered dataset (no failure — `List.filter` is total, as is the pandas mask),
and the dashboard then renders the explicit no-data outcome of lines 168-170
instead of any chart. -/
theorem c4_empty_match_no_data (df : List Record) (sel : Selection)
    (h : ∀ r ∈ df, recordMask sel r = false) :
    applyFilter df sel = [] ∧ outcome df sel = Outcome.noData := by
  have h1 : applyFilter df sel = [] := by
    apply List.filter_eq_nil_iff.mpr
    intro a ha
    simp [h a ha]
  exact ⟨h1, by simp [outcome, h1]⟩

/-- C4 witness: filtering the India dataset by a country absent from it
("Atlantis") yields the empty dataset and the no-data outcome. -/
theorem c4_witness :
    applyFilter [exIndia2019, exIndia2020] (Selection.mk ["Atlantis"] [] []) = [] ∧
    outcome [exIndia2019, exIndia2020] (Selection.mk ["Atlantis"] [] []) =
      Outcome.noData :=
  c4_empty_match_no_data [exIndia2019, exIndia2020]
    (Selection.mk ["Atlantis"] [] []) (by decide)

/-- C7: the filter engine is idempotent — applying the same mask to its own
output returns the output unchanged. -/
theorem c7_filter_idempotent (df : List Record) (sel : Selection) :
    applyFilter (applyFilter df sel) sel = applyFilter df sel :=
  List.filter_eq_self.mpr (fun _ ha => (List.mem_filter.mp ha).2)

theorem insertLe_perm {α : Type} (le : α → α → Bool) (a : α) :
    ∀ l : List α, (insertLe le a l).Perm (a :: l)
  | [] => List.Perm.refl _
  | b :: l => by
    rw [insertLe]
    split
    · exact List.Perm.refl _
    · exact ((insertLe_perm le a l).cons b).trans (List.Perm.swap a b l)

theorem sortLe_perm {α : Type} (le : α → α → Bool) :
    ∀ l : List α, (sortLe le l).Perm l
  | [] => List.Perm.refl _
  | a :: l => (insertLe_perm le a (sortLe le l)).trans ((sortLe_perm le l).cons a)

theorem insertLe_pairwise {α : Type} {le : α → α → Bool} {R : α → α → Prop}
    (hle : ∀ a b, le a b = true → R a b)
    (hgt : ∀ a b, le a b = false → R b a)
    (htr : ∀ a b c, R a b → R b c → R a c)
    (a : α) : ∀ l : List α, l.Pairwise R → (insertLe le a l).Pairwise R
  | [], _ => List.pairwise_singleton R a
  | b :: l, hp => by
    have hbl : ∀ x ∈ l, R b x := fun x hx => List.rel_of_pairwise_cons hp hx
    simp only [insertLe]
    by_cases hab : le a b = true
    · rw [if_pos hab]
      refine List.Pairwise.cons ?_ hp
      intro x hx
      rcases List.mem_cons.mp hx with hxb | hxl
      · exact hxb ▸ hle a b hab
      · exact htr a b x (hle a b hab) (hbl x hxl)
    · rw [if_neg hab]
      have hab2 : le a b = false := by
        revert hab
        cases le a b <;> simp
      refine List.Pairwise.cons ?_ (insertLe_pairwise hle hgt htr a l hp.of_cons)
      intro x hx
      rcases List.mem_cons.mp ((insertLe_perm le a l).mem_iff.mp hx) with hxa | hxl
      · exact hxa ▸ hgt a b hab2
      · exact hbl x hxl

theorem sortLe_pairwise {α : Type} {le : α → α → Bool} {R : α → α → Prop}
    (hle : ∀ a b, le a b = true → R a b)
    (hgt : ∀ a b, le a b = false → R b a)
    (htr : ∀ a b c, R a b → R b c → R a c) :
    ∀ l : List α, (sortLe le l).Pairwise R
  | [] => List.Pairwise.nil
  | a :: l => insertLe_pairwise hle hgt htr a _ (sortLe_pairwise hle hgt htr l)

theorem charListLe_total : ∀ as bs, charListLe as bs = false → charListLe bs as = true
  | [], _, h => by
    simp only [charListLe] at h
    exact absurd h (by decide)
  | _ :: _, [], _ => rfl
  | a :: as, b :: bs, h => by
    simp only [charListLe] at h ⊢
    by_cases hab : a < b
    · rw [if_pos hab] at h
      exact absurd h (by decide)
    · rw [if_neg hab] at h
      by_cases hba : b < a
      · rw [if_pos hba]
      · rw [if_neg hba] at h
        rw [if_neg hba, if_neg hab]
        exact charListLe_total as bs h

theorem charListLe_trans :
    ∀ as bs cs, charListLe as bs = true → charListLe bs cs = true →
      charListLe as cs = true
  | [], _, _, _, _ => rfl
  | _ :: _, [], _, h1, _ => by
    simp only [charListLe] at h1
    exact absurd h1 (by decide)
  | _ :: _, _ :: _, [], _, h2 => by
    simp only [charListLe] at h2
    exact absurd h2 (by decide)
  | a :: as, b :: bs, c :: cs, h1, h2 => by
    simp only [charListLe] at h1 h2 ⊢
    by_cases hbc : b < c
    · by_cases hab : a < b
      · rw [if_pos (lt_trans hab hbc)]
      · rw [if_neg hab] at h1
        by_cases hba : b < a
        · rw [if_pos hba] at h1
          exact absurd h1 (by decide)
        · have hab2 : a = b := le_antisymm (le_of_not_lt hba) (le_of_not_lt hab)
          rw [if_pos (hab2 ▸ hbc)]
    · rw [if_neg hbc] at h2
      by_cases hcb : c < b
      · rw [if_pos hcb] at h2
        exact absurd h2 (by decide)
      · rw [if_neg hcb] at h2
        have hbc2 : b = c := le_antisymm (le_of_not_lt hcb) (le_of_not_lt hbc)
        subst hbc2
        by_cases hab : a < b
        · rw [if_pos hab]
        · rw [if_neg hab] at h1
          by_cases hba : b < a
          · rw [if_pos hba] at h1
            exact absurd h1 (by decide)
          · rw [if_neg hba] at h1
            rw [if_neg hab, if_neg hba]
            exact charListLe_trans as bs cs h1 h2

/-- Stability of the descending sort: any tie-respecting pairwise relation of
the input (here: relative order of equal counts) survives sorting. -/
theorem insertLe_pairwise_tie {σ : Type} {R : σ × Nat → σ × Nat → Prop} (a : σ × Nat) :
    ∀ l : List (σ × Nat),
      l.Pairwise (fun p q => p.2 = q.2 → R p q) →
      (∀ q ∈ l, a.2 = q.2 → R a q) →
      (insertLe descBy a l).Pairwise (fun p q => p.2 = q.2 → R p q)
  | [], _, _ => List.pairwise_singleton _ a
  | b :: l, hp, ha => by
    simp only [insertLe]
    by_cases hab : descBy a b = true
    · rw [if_pos hab]
      exact List.Pairwise.cons ha hp
    · rw [if_neg hab]
      have hlt : ¬ (b.2 ≤ a.2) := fun hc => hab (decide_eq_true hc)
      refine List.Pairwise.cons ?_
        (insertLe_pairwise_tie a l hp.of_cons
          (fun q hq => ha q (List.mem_cons_of_mem b hq)))
      intro x hx heq
      rcases List.mem_cons.mp ((insertLe_perm descBy a l).mem_iff.mp hx) with hxa | hxl
      · subst hxa
        exact absurd (le_of_eq heq) hlt
      · exact List.rel_of_pairwise_cons hp hxl heq

theorem sortLe_pairwise_tie {σ : Type} {R : σ × Nat → σ × Nat → Prop} :
    ∀ l : List (σ × Nat),
      l.Pairwise (fun p q => p.2 = q.2 → R p q) →
      (sortValuesDesc l).Pairwise (fun p q => p.2 = q.2 → R p q)
  | [], _ => List.Pairwise.nil
  | a :: l, hp => by
    have ha : ∀ q ∈ sortLe descBy l, a.2 = q.2 → R a q := fun q hq =>
      List.rel_of_pairwise_cons hp ((sortLe_perm descBy l).mem_iff.mp hq)
    exact insertLe_pairwise_tie a _ (sortLe_pairwise_tie l hp.of_cons) ha

/-- The descending sort is sorted by count. -/
theorem sortValuesDesc_pairwise {σ : Type} (agg : List (σ × Nat)) :
    (sortValuesDesc agg).Pairwise (fun p q => q.2 ≤ p.2) :=
  @sortLe_pairwise (σ × Nat) descBy (fun p q => q.2 ≤ p.2)
    (fun _ _ h => of_decide_eq_true h)
    (fun _ _ h => le_of_not_le (of_decide_eq_false h))
    (fun _ _ _ h1 h2 => le_trans h2 h1) agg

theorem totalCount_cons (r : Record) (l : List Record) :
    totalCount (r :: l) = r.count + totalCount l := rfl

theorem sum_map_add_nat {α : Type} (f g : α → Nat) :
    ∀ l : List α, (l.map (fun x => f x + g x)).sum = (l.map f).sum + (l.map g).sum
  | [] => rfl
  | a :: l => by
    simp only [List.map_cons, List.sum_cons, sum_map_add_nat f g l]
    omega

theorem sum_map_zero_nat {α : Type} :
    ∀ l : List α, (l.map (fun _ => (0 : Nat))).sum = 0
  | [] => rfl
  | _ :: l => by simp only [List.map_cons, List.sum_cons, sum_map_zero_nat l]

theorem sum_map_single {α : Type} [DecidableEq α] (c : Nat) (a : α) :
    ∀ ks : List α, ks.Nodup → a ∈ ks →
      (ks.map (fun k => if a = k then c else 0)).sum = c
  | [], _, ha => absurd ha (List.not_mem_nil a)
  | k :: ks, hn, ha => by
    simp only [List.map_cons, List.sum_cons]
    rcases List.mem_cons.mp ha with hak | haks
    · subst hak
      rw [if_pos rfl]
      have hz : (ks.map (fun x => if a = x then c else 0)).sum = 0 := by
        have : ks.map (fun x => if a = x then c else 0) = ks.map (fun _ => 0) :=
          List.map_congr_left (fun x hx => by
            rw [if_neg]
            intro hax
            exact (List.nodup_cons.mp hn).1 (hax ▸ hx))
        rw [this, sum_map_zero_nat]
      omega
    · have hak : a ≠ k := by
        intro h
        exact (List.nodup_cons.mp hn).1 (h ▸ haks)
      rw [if_neg hak, sum_map_single c a ks (List.nodup_cons.mp hn).2 haks]
      omega

theorem groupTotal_cons {α : Type} [DecidableEq α] (key : Record → α)
    (r : Record) (df : List Record) (k : α) :
    groupTotal key (r :: df) k =
      (if key r = k then r.count else 0) + groupTotal key df k := by
  rw [groupTotal, List.filter_cons]
  by_cases h : key r = k
  · rw [if_pos (decide_eq_true h), if_pos h, totalCount_cons]
    rfl
  · rw [if_neg (by simpa using h), if_neg h, Nat.zero_add]
    rfl

/-- Partition lemma: summing the per-group totals over any duplicate-free
key list that covers the dataset reproduces the grand total. -/
theorem sum_groupTotal {α : Type} [DecidableEq α] (key : Record → α) :
    ∀ (df : List Record) (ks : List α), ks.Nodup → (∀ r ∈ df, key r ∈ ks) →
      (ks.map (fun k => groupTotal key df k)).sum = totalCount df
  | [], ks, _, _ => by
    have : ks.map (fun k => groupTotal key ([] : List Record) k) =
        ks.map (fun _ => 0) :=
      List.map_congr_left (fun _ _ => rfl)
    rw [this, sum_map_zero_nat]
    rfl
  | r :: df, ks, hn, hc => by
    have h1 : ks.map (fun k => groupTotal key (r :: df) k) =
        ks.map (fun k => (if key r = k then r.count else 0) + groupTotal key df k) :=
      List.map_congr_left (fun k _ => groupTotal_cons key r df k)
    rw [h1, sum_map_add_nat, sum_map_single r.count (key r) ks hn (hc r (List.mem_cons_self r df)),
      sum_groupTotal key df ks hn (fun x hx => hc x (List.mem_cons_of_mem r hx)),
      totalCount_cons]

theorem groupKeys_nodup {α : Type} [DecidableEq α] (le : α → α → Bool)
    (key : Record → α) (df : List Record) : (groupKeys le key df).Nodup :=
  ((df.map key).nodup_dedup).perm (sortLe_perm le _).symm

theorem mem_groupKeys {α : Type} [DecidableEq α] (le : α → α → Bool)
    (key : Record → α) (df : List Record) (k : α) :
    k ∈ groupKeys le key df ↔ ∃ r ∈ df, key r = k := by
  rw [groupKeys, (sortLe_perm le _).mem_iff, List.mem_dedup, List.mem_map]

/-- C8: grouping by any single key and summing `count` within the groups
neither drops nor double-counts: the per-group totals of `sum_by` always add
back up to the grand total of the dataset. -/
theorem c8_grand_total_invariant {α : Type} [DecidableEq α] (le : α → α → Bool)
    (key : Record → α) (df : List Record) :
    sumCounts (sum_by le key df) = totalCount df := by
  rw [sumCounts, sum_by, List.map_map]
  have h2 : ((groupKeys le key df).map (Prod.snd ∘ fun k => (k, groupTotal key df k))) =
      (groupKeys le key df).map (fun k => groupTotal key df k) := rfl
  rw [h2]
  exact sum_groupTotal key df (groupKeys le key df) (groupKeys_nodup le key df)
    (fun r hr => (mem_groupKeys le key df (key r)).mpr ⟨r, hr, rfl⟩)

theorem groupKeys_pairwise_strLe (key : Record → String) (df : List Record) :
    (groupKeys strLe key df).Pairwise (fun a b => strLe a b = true) :=
  @sortLe_pairwise String strLe (fun a b => strLe a b = true)
    (fun _ _ h => h)
    (fun a b h => charListLe_total a.data b.data h)
    (fun a b c h1 h2 => charListLe_trans a.data b.data c.data h1 h2)
    (df.map key).dedup

/-- C3 (amended): every top-n cut has at most n entries and is sorted by
summed count descending; for equal counts the entries appear in ascending
group-key order (the order pandas' sorted groupby emits them in, preserved by
the stable descending sort) — in particular the cut is a deterministic
function of its input.  The original claim named first-seen record order as
the tie-break, which the groupby key sort already destroys. -/
theorem c3_top_n_sorted_deterministic (df : List Record) (n : Nat) :
    (top_countries df n).length ≤ n ∧
    (top_countries df n).Pairwise
      (fun p q => q.2 ≤ p.2 ∧ (p.2 = q.2 → strLe p.1 q.1 = true ∧ p.1 ≠ q.1)) := by
  constructor
  · exact List.length_take_le n _
  · have hkeys : (groupKeys strLe Record.country df).Pairwise
        (fun a b => strLe a b = true ∧ a ≠ b) :=
      (groupKeys_pairwise_strLe Record.country df).and
        (groupKeys_nodup strLe Record.country df)
    have hagg : (sum_by strLe Record.country df).Pairwise
        (fun p q => strLe p.1 q.1 = true ∧ p.1 ≠ q.1) :=
      List.pairwise_map.mpr hkeys
    have htie : (sortValuesDesc (sum_by strLe Record.country df)).Pairwise
        (fun p q => p.2 = q.2 → strLe p.1 q.1 = true ∧ p.1 ≠ q.1) :=
      sortLe_pairwise_tie _
        (List.Pairwise.imp (fun h => fun _ => h) hagg)
    have hdesc := sortValuesDesc_pairwise (sum_by strLe Record.country df)
    exact (hdesc.and htie).sublist (List.take_sublist n _)

/-- C3 counterexample: on a dataset whose countries appear in the order
B, A with equal counts, the code's top-n cut returns the tied groups in
sorted key order A, B — not in first-seen group-key order B, A as the claim
states. -/
theorem c3_counterexample :
    [exB5, exA5].map Record.country = ["B", "A"] ∧
    top_countries [exB5, exA5] 2 = [("A", 5), ("B", 5)] ∧
    top_countries [exB5, exA5] 2 ≠ [("B", 5), ("A", 5)] := by
  decide

/-- C10: the slope chart is produced exactly when the data passed in contains
at least two distinct resident-status values; with fewer the function
returns `none` (the code shows the insufficient-data warning there), and
every call site plots only a non-`None` result. -/
theorem c10_slope_needs_two_groups (data : List Record) :
    create_resident_slope_graph data = none ↔
      (data.map Record.resident).dedup.length < 2 := by
  have hlen : (residentTotals data).length = (data.map Record.resident).dedup.length := by
    rw [residentTotals, sum_by, List.length_map, groupKeys, (sortLe_perm strLe _).length_eq]
  rw [create_resident_slope_graph, ← hlen]
  by_cases h : (residentTotals data).length < 2
  · simp [h]
  · simp [h]

/-- C5 (amended): `total_percent` always divides by the grand total of the
same aggregation call and never raises: when the grand total is zero every
entry becomes the float NaN of 0/0, silently carried in the output (an empty
aggregation gives an empty mapping), and when the grand total is non-zero
every entry is the finite rounded percentage of its group count. -/
theorem c5_percentage_of_total {σ : Type} (agg : List (σ × Nat)) :
    (sumCounts agg = 0 → total_percent agg = agg.map (fun e => (e.1, PVal.nan))) ∧
    (sumCounts agg ≠ 0 → ∀ e ∈ total_percent agg, ∃ k c,
      (k, c) ∈ agg ∧
      e = (k, PVal.fin (roundTo2 ((c : ℚ) / (sumCounts agg : ℚ) * 100)))) := by
  constructor
  · intro h0
    apply List.map_congr_left
    intro e he
    have hc : e.2 = 0 := by
      have := List.sum_eq_zero_iff.mp h0 e.2 (List.mem_map_of_mem Prod.snd he)
      exact this
    rw [divPct, if_pos h0, if_pos hc]
  · intro h0 e he
    obtain ⟨p, hp, hpe⟩ := List.mem_map.mp he
    refine ⟨p.1, p.2, hp, ?_⟩
    rw [← hpe, divPct, if_neg h0]

/-- C5 counterexample: on the aggregation with one zero-count group the code
propagates the NaN of 0/0 into the output row (there is no explicit
undefined marker in the code path), and on the empty aggregation it returns
the empty mapping rather than any marker. -/
theorem c5_counterexample :
    total_percent [("Mandamus", 0)] = [("Mandamus", PVal.nan)] ∧
    total_percent ([] : List (String × Nat)) = [] := by
  exact ⟨rfl, rfl⟩

/-- C5 witness: the amended theorem applied to a zero-total and a non-zero
total aggregation. -/
theorem c5_witness :
    total_percent [("RAD Decisions", 0), ("Mandamus", 0)] =
      [("RAD Decisions", PVal.nan), ("Mandamus", PVal.nan)] ∧
    (∀ e ∈ total_percent [("Allowed", 1), ("Dismissed", 3)], ∃ k : String, ∃ c : Nat,
      (k, c) ∈ [("Allowed", 1), ("Dismissed", 3)] ∧
      e = (k, PVal.fin (roundTo2 ((c : ℚ) /
        (sumCounts [("Allowed", 1), ("Dismissed", 3)] : ℚ) * 100)))) :=
  ⟨(c5_percentage_of_total [("RAD Decisions", 0), ("Mandamus", 0)]).1 rfl,
   (c5_percentage_of_total [("Allowed", 1), ("Dismissed", 3)]).2 (by decide)⟩

theorem ne_nil_of_totalCount_pos {l : List Record} (h : 0 < totalCount l) :
    l ≠ [] := by
  intro h0
  rw [h0] at h
  exact absurd h (by decide)

theorem exists_pos_of_totalCount_pos :
    ∀ l : List Record, 0 < totalCount l → ∃ r ∈ l, 0 < r.count
  | [], h => absurd h (by decide)
  | r :: l, h => by
    rw [totalCount_cons] at h
    by_cases hr : 0 < r.count
    · exact ⟨r, List.mem_cons_self r l, hr⟩
    · have hl : 0 < totalCount l := by omega
      obtain ⟨x, hx, hxc⟩ := exists_pos_of_totalCount_pos l hl
      exact ⟨x, List.mem_cons_of_mem r hx, hxc⟩

theorem count_le_totalCount {r : Record} {l : List Record} (hl : r ∈ l) :
    r.count ≤ totalCount l :=
  List.single_le_sum (fun b _ => Nat.zero_le b) r.count
    (List.mem_map_of_mem Record.count hl)

theorem totalCount_filter_le (p : Record → Bool) :
    ∀ l : List Record, totalCount (l.filter p) ≤ totalCount l
  | [] => le_refl 0
  | r :: l => by
    rw [List.filter_cons, totalCount_cons]
    by_cases h : p r = true
    · rw [if_pos h, totalCount_cons]
      exact Nat.add_le_add_left (totalCount_filter_le p l) r.count
    · rw [if_neg h]
      exact le_trans (totalCount_filter_le p l) (Nat.le_add_left _ _)

theorem groupTotal_le_totalCount_filter {α : Type} [DecidableEq α]
    (key : Record → α) (df : List Record) (ks : List α) (k : α) (hk : k ∈ ks) :
    groupTotal key df k ≤ totalCount (df.filter (fun r => decide (key r ∈ ks))) := by
  have h1 : df.filter (fun r => decide (key r = k)) =
      df.filter (fun r => decide (key r = k) && decide (key r ∈ ks)) :=
    List.filter_congr (fun a _ => by
      by_cases h : key a = k
      · simp [h, hk]
      · simp [h])
  rw [groupTotal, h1, ← List.filter_filter]
  exact totalCount_filter_le _ _

theorem sum_by_ne_nil {α : Type} [DecidableEq α] (le : α → α → Bool)
    (key : Record → α) (df : List Record) (h : df ≠ []) :
    sum_by le key df ≠ [] := by
  rw [sum_by]
  intro hmap
  have hkeys : groupKeys le key df = [] := List.map_eq_nil_iff.mp hmap
  have hlen := (sortLe_perm le (df.map key).dedup).length_eq
  rw [groupKeys] at hkeys
  rw [hkeys] at hlen
  simp at hlen
  exact h (List.map_eq_nil_iff.mp ((List.dedup_eq_nil (df.map key)).mp
    (List.eq_nil_of_length_eq_zero hlen.symm)))

theorem mem_sum_by {α : Type} [DecidableEq α] (le : α → α → Bool)
    (key : Record → α) (df : List Record) (e : α × Nat) :
    e ∈ sum_by le key df ↔
      e.1 ∈ groupKeys le key df ∧ e.2 = groupTotal key df e.1 := by
  obtain ⟨k, c⟩ := e
  rw [sum_by, List.mem_map]
  simp only [Prod.mk.injEq]
  constructor
  · rintro ⟨x, hx, rfl, rfl⟩
    exact ⟨hx, rfl⟩
  · rintro ⟨h1, h2⟩
    exact ⟨k, h1, rfl, h2.symm⟩

theorem sortValuesDesc_head_max {σ : Type} (agg : List (σ × Nat)) (h : agg ≠ []) :
    ∃ e0 t, sortValuesDesc agg = e0 :: t ∧ e0 ∈ agg ∧ ∀ e ∈ agg, e.2 ≤ e0.2 := by
  have hlen := (sortLe_perm descBy agg).length_eq
  cases hs : sortValuesDesc agg with
  | nil =>
    rw [sortValuesDesc] at hs
    rw [hs] at hlen
    simp at hlen
    exact absurd (List.eq_nil_of_length_eq_zero hlen.symm) h
  | cons e0 t =>
    refine ⟨e0, t, rfl, ?_, ?_⟩
    · have hm : e0 ∈ sortValuesDesc agg := by
        rw [hs]
        exact List.mem_cons_self e0 t
      exact (sortLe_perm descBy agg).mem_iff.mp hm
    · intro e he
      have he2 : e ∈ sortValuesDesc agg := (sortLe_perm descBy agg).mem_iff.mpr he
      rw [hs] at he2
      rcases List.mem_cons.mp he2 with rfl | ht
      · exact le_refl _
      · have hp := sortValuesDesc_pairwise agg
        rw [hs] at hp
        exact List.rel_of_pairwise_cons hp ht

theorem head_mem_take {σ : Type} (e0 : σ) (t : List σ) (n : Nat) (h : 0 < n) :
    e0 ∈ (e0 :: t).take n := by
  cases n with
  | zero => exact absurd h (by decide)
  | succ m =>
    rw [List.take_succ_cons]
    exact List.mem_cons_self e0 _

theorem treemapData_total_pos (fd : List Record) (h : 0 < totalCount fd) :
    0 < totalCount (treemapData fd) := by
  obtain ⟨r, hr, hrc⟩ := exists_pos_of_totalCount_pos fd h
  have hfd : fd ≠ [] := List.ne_nil_of_mem hr
  have haggne : sum_by strLe Record.country fd ≠ [] :=
    sum_by_ne_nil strLe Record.country fd hfd
  obtain ⟨e0, t, hs, he0, hmax⟩ :=
    sortValuesDesc_head_max (sum_by strLe Record.country fd) haggne
  have hrk : r.country ∈ groupKeys strLe Record.country fd :=
    (mem_groupKeys strLe Record.country fd r.country).mpr ⟨r, hr, rfl⟩
  have hrent : (r.country, groupTotal Record.country fd r.country) ∈
      sum_by strLe Record.country fd :=
    (mem_sum_by strLe Record.country fd _).mpr ⟨hrk, rfl⟩
  have hgt : 0 < groupTotal Record.country fd r.country :=
    lt_of_lt_of_le hrc
      (count_le_totalCount (List.mem_filter.mpr ⟨hr, decide_eq_true rfl⟩))
  have he0pos : 0 < e0.2 := lt_of_lt_of_le hgt (hmax _ hrent)
  have he0top : e0 ∈ top_countries fd 5 := by
    rw [top_countries, top_n, hs]
    exact head_mem_take e0 t 5 (by decide)
  have hk0 : e0.1 ∈ top5CountryKeys fd := List.mem_map_of_mem Prod.fst he0top
  have he0g : e0.2 = groupTotal Record.country fd e0.1 :=
    ((mem_sum_by strLe Record.country fd e0).mp he0).2
  have hle : groupTotal Record.country fd e0.1 ≤ totalCount (treemapData fd) :=
    groupTotal_le_totalCount_filter Record.country fd (top5CountryKeys fd) e0.1 hk0
  rw [he0g] at he0pos
  exact lt_of_lt_of_le he0pos hle

theorem yearlyCountryFiltered_ne_nil (fd : List Record) (h : fd ≠ []) :
    yearlyCountryFiltered fd ≠ [] := by
  have haggne : sum_by strLe Record.country fd ≠ [] :=
    sum_by_ne_nil strLe Record.country fd h
  obtain ⟨e0, t, hs, he0, hmax⟩ :=
    sortValuesDesc_head_max (sum_by strLe Record.country fd) haggne
  have he0top : e0 ∈ top_countries fd 10 := by
    rw [top_countries, top_n, hs]
    exact head_mem_take e0 t 10 (by decide)
  have hk0 : e0.1 ∈ top10CountryKeys fd := List.mem_map_of_mem Prod.fst he0top
  have hk0keys : e0.1 ∈ groupKeys strLe Record.country fd :=
    ((mem_sum_by strLe Record.country fd e0).mp he0).1
  obtain ⟨r, hr, hrk⟩ := (mem_groupKeys strLe Record.country fd e0.1).mp hk0keys
  have hpk : (r.year, r.country) ∈ groupKeys pairLe (fun x => (x.year, x.country)) fd :=
    (mem_groupKeys pairLe (fun x => (x.year, x.country)) fd _).mpr ⟨r, hr, rfl⟩
  have hpe : ((r.year, r.country),
      groupTotal (fun x => (x.year, x.country)) fd (r.year, r.country)) ∈
      sum_by pairLe (fun x => (x.year, x.country)) fd :=
    (mem_sum_by pairLe (fun x => (x.year, x.country)) fd _).mpr ⟨hpk, rfl⟩
  have hmem : ((r.year, r.country),
      groupTotal (fun x => (x.year, x.country)) fd (r.year, r.country)) ∈
      yearlyCountryFiltered fd := by
    rw [yearlyCountryFiltered]
    apply List.mem_filter.mpr
    refine ⟨hpe, ?_⟩
    apply decide_eq_true
    show r.country ∈ top10CountryKeys fd
    rw [hrk]
    exact hk0
  exact List.ne_nil_of_mem hmem

/-- C6 (amended): whenever the filtered subset has a positive total count,
every view state reaches its `create_resident_slope_graph` call — the
resident split never influences which view state `selectView` picks (that is
a function of the selection alone).  For a non-empty subset whose counts sum
to zero the guards of Case 1 (line 303) and Case 5 (line 486) skip the call,
which is what the counterexample exhibits against the original claim. -/
theorem c6_slope_always_computed (df : List Record) (sel : Selection)
    (h : 0 < totalCount (applyFilter df sel)) :
    slopeComputed df sel = true := by
  have hne : applyFilter df sel ≠ [] := ne_nil_of_totalCount_pos h
  have hout : outcome df sel = Outcome.view (selectView sel) := by
    rw [outcome, if_neg]
    simpa [List.isEmpty_iff] using hne
  have hred : slopeComputed df sel = slopeBranch (applyFilter df sel) (selectView sel) := by
    rw [slopeComputed, hout]
  rw [hred]
  cases hv : selectView sel with
  | allThree => exact decide_eq_true h
  | countryCategory =>
    simp only [slopeBranch]
    cases hsb : sum_by intLe Record.year (applyFilter df sel) with
    | nil => exact absurd hsb (sum_by_ne_nil intLe Record.year _ hne)
    | cons a t => rfl
  | yearOnly =>
    have hpos := treemapData_total_pos (applyFilter df sel) h
    simp only [slopeBranch]
    cases ht : treemapData (applyFilter df sel) with
    | nil => exact absurd ht (ne_nil_of_totalCount_pos hpos)
    | cons a t =>
      rw [ht] at hpos
      simp [decide_eq_true hpos]
  | categoryOnly =>
    simp only [slopeBranch]
    cases hsb : yearlyCountryFiltered (applyFilter df sel) with
    | nil => exact absurd hsb (yearlyCountryFiltered_ne_nil _ hne)
    | cons a t => rfl
  | noFilters => rfl
  | yearCountry => rfl
  | yearCategory => rfl
  | countryOnly => rfl
  | general => rfl

/-- C6 witness: a singleton India dataset with the country filter active and
a positive count computes the resident split. -/
theorem c6_witness :
    slopeComputed [exIndia2019] (Selection.mk ["India"] [] []) = true :=
  c6_slope_always_computed [exIndia2019] (Selection.mk ["India"] [] []) (by decide)

/-- C6 counterexample: with all three filters active and a non-empty filtered
subset whose counts sum to zero, Case 1 of the source
(`if total_refusals > 0`, line 303) never calls
`create_resident_slope_graph`, so the resident split is not computed for this
non-empty subset. -/
theorem c6_counterexample :
    applyFilter [exZeroCount] (Selection.mk ["India"] [2019] ["A"]) ≠ [] ∧
    outcome [exZeroCount] (Selection.mk ["India"] [2019] ["A"]) =
      Outcome.view ViewCase.allThree ∧
    slopeComputed [exZeroCount] (Selection.mk ["India"] [2019] ["A"]) = false := by
  decide

/-- C9: `df[mask]` is an order-preserving subsequence of the source dataset:
every retained record occurs in the source, nothing is duplicated or
synthesized, relative order is preserved, and the source list itself is a
value that filtering never mutates. -/
theorem c9_filter_sublist (df : List Record) (sel : Selection) :
    List.Sublist (applyFilter df sel) df :=
  List.filter_sublist df

end LawDashboard
